import Mathlib

/-
Verification development for the paper-trading ledger and market-data
synchronization core of the StockTradingAdvisor repository.

The TypeScript source is shallowly embedded:
* JavaScript numbers (balances, share quantities, prices) are modelled as ℚ
  (exact arithmetic; no claim below depends on binary floating-point rounding);
* `Date.now()` timestamps are Nat milliseconds; calendar dates (the
  `YYYY-MM-DD` strings of the performance endpoint, whose lexicographic order
  coincides with chronological order) are Nat day indices;
* database rows are Lean structures, tables are lists, and every controller
  becomes a pure function from a state to a result paired with the new state;
* a fallible upstream call is an oracle function returning Option;
* `String.prototype.toUpperCase` is embedded as `toUpperStr`.

Division by zero in ℚ normalizes to 0; the only place it could arise
(a buy whose quantity is the exact negation of the held quantity) is not
relied upon by any theorem below.
-/

set_option autoImplicit false

namespace StockTrading

/-- Embedding of JavaScript `String.prototype.toUpperCase` (ASCII letters are
what stock symbols use; `Char.toUpper` matches on those). -/
def toUpperStr (s : String) : String := ⟨s.data.map Char.toUpper⟩

/-! ## Data model (database rows of `portfolioController.ts`) -/

/-- A row of the `holdings` table. -/
structure Holding where
  symbol : String
  quantity : ℚ
  purchase_price : ℚ
  current_price : ℚ
  deriving DecidableEq, Repr

/-- A row of the `transactions` table (timestamps are carried separately
where a claim needs them). -/
structure Txn where
  type : String
  symbol : String
  quantity : ℚ
  price : ℚ
  deriving DecidableEq, Repr

/-- The slice of a `portfolios` row that trade execution touches, together
with the account's holdings and transaction log. -/
structure Account where
  current_balance : ℚ
  initial_balance : ℚ
  holdings : List Holding
  transactions : List Txn
  deriving DecidableEq, Repr

/-- SELECT * FROM holdings WHERE portfolio_id = ? AND symbol = ?, taking the
first row (`holdings[0]` in the controller). -/
def findHolding : List Holding → String → Option Holding
  | [], _ => none
  | h :: rest, s => if h.symbol = s then some h else findHolding rest s

/-- UPDATE holdings ... WHERE id = ?: replace the row the preceding SELECT
found, i.e. the first row with this symbol. -/
def updateHolding : List Holding → String → Holding → List Holding
  | [], _, _ => []
  | h :: rest, s, h' => if h.symbol = s then h' :: rest else h :: updateHolding rest s h'

/-- DELETE FROM holdings WHERE id = ?: remove the row the preceding SELECT
found, i.e. the first row with this symbol. -/
def removeHolding : List Holding → String → List Holding
  | [], _ => []
  | h :: rest, s => if h.symbol = s then rest else h :: removeHolding rest s

/-! ## Market-data services

`yahooFinanceService.ts` (used by the trade and performance controllers) and
`alphaVantageService.ts` (the quote cache + request throttle singleton). -/

/-- The quote record `YahooFinanceService.getQuote` returns; only `price`
flows into the ledger, the remaining fields are display data. -/
structure YQuote where
  symbol : String
  price : ℚ
  deriving DecidableEq, Repr

/-- Observable state of the Yahoo service: how many upstream `this.yf.quote`
calls have been made. The service has no cache and no queue. -/
structure YFState where
  fetchCount : Nat
  deriving DecidableEq, Repr

/-- `YahooFinanceService.getQuote`: always calls upstream (`this.yf.quote`);
a null result or a transport error (oracle `none`) is thrown to the caller. -/
def yahooGetQuote (yfetch : String → Option YQuote) (st : YFState) (symbol : String) :
    Option YQuote × YFState :=
  (yfetch symbol, { fetchCount := st.fetchCount + 1 })

/-- The quote record `AlphaVantageService.getQuote` builds from a
`GLOBAL_QUOTE` response. -/
structure AVQuote where
  symbol : String
  price : ℚ
  change : ℚ
  changePercent : ℚ
  volume : Nat
  deriving DecidableEq, Repr

/-- An entry of the `AlphaVantageService` cache: `{ data, timestamp }`. -/
structure CachedQuote where
  data : AVQuote
  timestamp : Nat
  deriving DecidableEq, Repr

/-- Observable state of the Alpha Vantage singleton: the per-symbol cache
and how many upstream fetches have been made. -/
structure AVState where
  cache : List (String × CachedQuote)
  fetchCount : Nat
  deriving DecidableEq, Repr

/-- Read `this.cache[symbol]`. -/
def cacheLookup : List (String × CachedQuote) → String → Option CachedQuote
  | [], _ => none
  | (k, c) :: rest, s => if k = s then some c else cacheLookup rest s

/-- Write `this.cache[symbol] = entry`, overwriting any prior entry. -/
def cacheSet : List (String × CachedQuote) → String → CachedQuote → List (String × CachedQuote)
  | [], s, c => [(s, c)]
  | (k, c₀) :: rest, s, c => if k = s then (s, c) :: rest else (k, c₀) :: cacheSet rest s c

/-- `this.cacheExpiry = 15 * 60 * 1000` (15 minutes in milliseconds). -/
def cacheExpiry : Nat := 15 * 60 * 1000

/-- `this.minRequestInterval = 12000` (12 seconds between upstream requests). -/
def minRequestInterval : Nat := 12000

/-- `AlphaVantageService.isCacheValid`: an entry exists and
`now - cached.timestamp < cacheExpiry`. (Nat subtraction truncates at 0,
which gives the same verdict as JavaScript's signed subtraction: a timestamp
not in the past is always within the window.) -/
def isCacheValid (st : AVState) (symbol : String) (now : Nat) : Bool :=
  match cacheLookup st.cache symbol with
  | none => false
  | some cached => now - cached.timestamp < cacheExpiry

/-- `AlphaVantageService.getQuote`: return the cached payload while the cache
entry is younger than the freshness window; otherwise fetch upstream (through
the request queue, whose timing is modelled separately by `sched`) and store
the result keyed by the symbol with the current time. The oracle `fetch` is
the upstream request; the claims about the cache assume it succeeds. -/
def avGetQuote (fetch : String → AVQuote) (st : AVState) (symbol : String) (now : Nat) :
    AVQuote × AVState :=
  match cacheLookup st.cache symbol with
  | some cached =>
    if now - cached.timestamp < cacheExpiry then
      (cached.data, st)
    else
      let q := fetch symbol
      (q, { cache := cacheSet st.cache symbol { data := q, timestamp := now },
            fetchCount := st.fetchCount + 1 })
  | none =>
    let q := fetch symbol
    (q, { cache := cacheSet st.cache symbol { data := q, timestamp := now },
          fetchCount := st.fetchCount + 1 })

/-! ## Trade execution (`executeTrade` in `portfolioController.ts`) -/

/-- The distinct error responses `executeTrade` can send: the three 400
validation responses and the 500 `Failed to execute trade` that any thrown
error (a failed quote lookup, or the TypeError of reading `holdings[0]` on an
empty result set) is converted into by the outer catch. -/
inductive TradeError where
  | invalidOrder
  | insufficientFunds
  | insufficientShares
  | serverError
  deriving DecidableEq, Repr

/-- The success payload of `executeTrade` (`price`, `quantity`, `total`). -/
structure TradeOk where
  price : ℚ
  quantity : ℚ
  total : ℚ
  deriving DecidableEq, Repr

/-- Embedding of `executeTrade`. The parameter checks mirror
`!symbol || !quantity || !type || (type !== 'buy' && type !== 'sell')`:
the falsy values of a string are the empty string and of a number 0, so a
negative quantity passes validation. The price is resolved through
`yahooFinanceService.getQuote(symbol.toUpperCase())`; the Alpha Vantage
singleton state `av` is threaded to record that the function never touches
it. On every error path the transaction is rolled back, so the account
state is returned unchanged. -/
def executeTrade (yfetch : String → Option YQuote) (av : AVState) (yf : YFState)
    (acct : Account) (symbol : String) (quantity : ℚ) (type : String) :
    Except TradeError TradeOk × Account × AVState × YFState :=
  if symbol = "" ∨ quantity = 0 ∨ type = "" ∨ (type ≠ "buy" ∧ type ≠ "sell") then
    (.error .invalidOrder, acct, av, yf)
  else
    match yahooGetQuote yfetch yf (toUpperStr symbol) with
    | (none, yf') => (.error .serverError, acct, av, yf')
    | (some quote, yf') =>
      let price := quote.price
      let totalCost := price * quantity
      if type = "buy" then
        if acct.current_balance < totalCost then
          (.error .insufficientFunds, acct, av, yf')
        else
          let holdings' :=
            match findHolding acct.holdings (toUpperStr symbol) with
            | some holding =>
              let newQuantity := holding.quantity + quantity
              let avgPrice :=
                (holding.purchase_price * holding.quantity + price * quantity) / newQuantity
              updateHolding acct.holdings (toUpperStr symbol)
                { holding with
                    quantity := newQuantity,
                    purchase_price := avgPrice,
                    current_price := price }
            | none =>
              acct.holdings ++
                [{ symbol := toUpperStr symbol,
                   quantity := quantity,
                   purchase_price := price,
                   current_price := price }]
          (.ok { price := price, quantity := quantity, total := totalCost },
           { acct with
              current_balance := acct.current_balance - totalCost,
              holdings := holdings',
              transactions := acct.transactions ++
                [{ type := type,
                   symbol := toUpperStr symbol,
                   quantity := quantity,
                   price := price }] },
           av, yf')
      else
        -- Sell. The source reads `holdings[0].quantity` before testing
        -- `holdings.length === 0`, so the no-holding case throws a TypeError
        -- (surfaced as a 500) and the emptiness test is unreachable.
        match findHolding acct.holdings (toUpperStr symbol) with
        | none => (.error .serverError, acct, av, yf')
        | some holding =>
          if holding.quantity < quantity then
            (.error .insufficientShares, acct, av, yf')
          else
            let newQuantity := holding.quantity - quantity
            let holdings' :=
              if newQuantity = 0 then removeHolding acct.holdings (toUpperStr symbol)
              else updateHolding acct.holdings (toUpperStr symbol)
                { holding with quantity := newQuantity, current_price := price }
            (.ok { price := price, quantity := quantity, total := totalCost },
             { acct with
                current_balance := acct.current_balance + totalCost,
                holdings := holdings',
                transactions := acct.transactions ++
                  [{ type := type,
                     symbol := toUpperStr symbol,
                     quantity := quantity,
                     price := price }] },
             av, yf')

/-! ## Request throttle timing (`processQueue` / `queueRequest`)

The JavaScript event loop is single-threaded, so the queue discipline is a
deterministic schedule. A request is a pair `(arrival, duration)` (when it
was pushed onto `requestQueue`, and how long its `await request()` takes);
arrivals are listed in push (submission) order. The schedule assigns each
request its start and completion time:

* the head request starts at its arrival (`processQueue` is called from
  `queueRequest` and the loop begins at once when the queue was idle);
* after a request completes at time `pc`, the loop checks whether the queue
  is non-empty — i.e. whether the next request had already arrived
  (`a ≤ pc`). If so it sleeps `minRequestInterval` and starts the next
  request at `pc + minRequestInterval`; if not, the loop exits,
  `isProcessing` is cleared, and the next request starts at its own arrival
  time when its `queueRequest` call re-enters `processQueue`. -/

/-- Schedule the tail of the queue given the completion time `pc` of the
previous request; returns `(arrival, start, completion)` triples. -/
def schedFrom (pc : Nat) : List (Nat × Nat) → List (Nat × Nat × Nat)
  | [] => []
  | (a, d) :: rest =>
    let s := if a ≤ pc then pc + minRequestInterval else a
    (a, s, s + d) :: schedFrom (s + d) rest

/-- Schedule a full submission sequence starting from an idle throttle. -/
def sched : List (Nat × Nat) → List (Nat × Nat × Nat)
  | [] => []
  | (a, d) :: rest => (a, a, a + d) :: schedFrom (a + d) rest

/-! ## Bulk migration (`migrateGuestPortfolio`) -/

/-- A row of the `portfolios` table. -/
structure PortfolioRow where
  id : Nat
  user_id : Nat
  name : String
  initial_balance : ℚ
  current_balance : ℚ
  deriving DecidableEq, Repr

/-- A holding as supplied by the guest/local-session store. -/
structure GuestHolding where
  symbol : String
  quantity : ℚ
  purchasePrice : ℚ
  currentPrice : ℚ
  purchaseDate : Option Nat
  deriving DecidableEq, Repr

/-- A transaction as supplied by the guest/local-session store. -/
structure GuestTxn where
  type : String
  symbol : String
  quantity : ℚ
  price : ℚ
  timestamp : Option Nat
  deriving DecidableEq, Repr

/-- The guest portfolio snapshot supplied in the request body. -/
structure GuestPortfolio where
  name : String
  initialBalance : ℚ
  currentBalance : ℚ
  deriving DecidableEq, Repr

/-- A row of the `holdings` table with its owning portfolio id and
`purchase_date`, as inserted by migration. -/
structure HoldingRow where
  portfolio_id : Nat
  symbol : String
  quantity : ℚ
  purchase_price : ℚ
  current_price : ℚ
  purchase_date : Nat
  deriving DecidableEq, Repr

/-- A row of the `transactions` table with its owning portfolio id and
timestamp. -/
structure TxnRow where
  portfolio_id : Nat
  type : String
  symbol : String
  quantity : ℚ
  price : ℚ
  timestamp : Nat
  deriving DecidableEq, Repr

/-- The tables migration touches, plus the auto-increment counter. -/
structure DB where
  portfolios : List PortfolioRow
  holdings : List HoldingRow
  transactions : List TxnRow
  nextId : Nat
  deriving DecidableEq, Repr

/-- The spec's error taxonomy entry for migration; the type exists so the
claim about it can be stated (see the C5 theorems — the source function has
no code path that produces it). -/
inductive MigrateError where
  | migrationConflict
  deriving DecidableEq, Repr

/-- Embedding of `migrateGuestPortfolio` (post-authentication): inside one
database transaction, INSERT a new portfolio row for `userId` with the
supplied balances, then INSERT every supplied holding and transaction
verbatim (missing dates default to `now`, mirroring `|| new Date()`).
The function performs no lookup of existing portfolios. -/
def migrateGuestPortfolio (db : DB) (userId : Nat) (portfolio : GuestPortfolio)
    (holdings : List GuestHolding) (transactions : List GuestTxn) (now : Nat) :
    Except MigrateError Nat × DB :=
  let portfolioId := db.nextId
  (.ok portfolioId,
   { portfolios := db.portfolios ++
       [{ id := portfolioId,
          user_id := userId,
          name := portfolio.name,
          initial_balance := portfolio.initialBalance,
          current_balance := portfolio.currentBalance }],
     holdings := db.holdings ++ holdings.map (fun h =>
       { portfolio_id := portfolioId,
         symbol := h.symbol,
         quantity := h.quantity,
         purchase_price := h.purchasePrice,
         current_price := h.currentPrice,
         purchase_date := h.purchaseDate.getD now }),
     transactions := db.transactions ++ transactions.map (fun t =>
       { portfolio_id := portfolioId,
         type := t.type,
         symbol := t.symbol,
         quantity := t.quantity,
         price := t.price,
         timestamp := t.timestamp.getD now }),
     nextId := db.nextId + 1 })

/-! ## Performance reconstruction (`getPortfolioPerformance` and
`YahooFinanceService.getBulkHistoricalData`) -/

/-- One normalized OHLCV point of a historical series. -/
structure DataPoint where
  date : Nat
  openPrice : ℚ
  high : ℚ
  low : ℚ
  close : ℚ
  volume : Nat
  deriving DecidableEq, Repr

/-- `getBulkHistoricalData`: fetch every symbol's series independently; a
per-symbol failure is caught and replaced by the empty series, never
propagated (the oracle `hfetch` is `getHistoricalData` for the fixed date
range, `none` meaning it threw). -/
def getBulkHistoricalData (hfetch : String → Option (List DataPoint))
    (symbols : List String) : List (String × List DataPoint) :=
  symbols.map (fun s => (s, (hfetch s).getD []))

/-- Read `historicalDataMap.get(symbol)`. -/
def dataFor : List (String × List DataPoint) → String → Option (List DataPoint)
  | [], _ => none
  | (k, d) :: rest, s => if k = s then some d else dataFor rest s

/-- `Array.from(new Set(transactions.map(t => t.symbol)))`: distinct symbols
in first-occurrence order. -/
def dedupSymbols (txns : List TxnRow) : List String :=
  txns.foldl (fun acc t => if t.symbol ∈ acc then acc else acc ++ [t.symbol]) []

/-- Deduplicate the collected dates (a JavaScript `Set` keeps the first
occurrence of each element). -/
def dedupNat (l : List Nat) : List Nat :=
  l.foldl (fun acc d => if d ∈ acc then acc else acc ++ [d]) []

/-- Insert into an ascending list, used to model `.sort()` on the dates. -/
def insertAsc (x : Nat) : List Nat → List Nat
  | [] => [x]
  | y :: rest => if x ≤ y then x :: y :: rest else y :: insertAsc x rest

/-- Sort ascending (`Array.prototype.sort` on the date keys). -/
def sortAsc (l : List Nat) : List Nat := l.foldr insertAsc []

/-- The in-memory holdings the replay loop builds
(`Map<string, { quantity, avgPrice }>`). -/
structure ReplayHolding where
  quantity : ℚ
  avgPrice : ℚ
  deriving DecidableEq, Repr

/-- Read `holdings.get(symbol)`. -/
def rhLookup : List (String × ReplayHolding) → String → Option ReplayHolding
  | [], _ => none
  | (k, h) :: rest, s => if k = s then some h else rhLookup rest s

/-- Write `holdings.set(symbol, h)`: update in place when the key exists,
append otherwise (JavaScript `Map` insertion order). -/
def rhSet : List (String × ReplayHolding) → String → ReplayHolding → List (String × ReplayHolding)
  | [], s, h => [(s, h)]
  | (k, h₀) :: rest, s, h => if k = s then (s, h) :: rest else (k, h₀) :: rhSet rest s h

/-- Write `holdings.delete(symbol)`. -/
def rhDelete : List (String × ReplayHolding) → String → List (String × ReplayHolding)
  | [], _ => []
  | (k, h₀) :: rest, s => if k = s then rest else (k, h₀) :: rhDelete rest s

/-- One iteration of the replay loop of `getPortfolioPerformance`: apply a
transaction's debit/credit and holdings update to `(cash, holdings)`.
Unlike live trade execution, the replay performs no balance or share
checks, and a sell of a symbol with no entry only credits cash. -/
def replayStep (st : ℚ × List (String × ReplayHolding)) (t : TxnRow) :
    ℚ × List (String × ReplayHolding) :=
  if t.type = "buy" then
    match rhLookup st.2 t.symbol with
    | some existing =>
      let newQuantity := existing.quantity + t.quantity
      let newAvgPrice :=
        (existing.avgPrice * existing.quantity + t.price * t.quantity) / newQuantity
      (st.1 - t.price * t.quantity, rhSet st.2 t.symbol ⟨newQuantity, newAvgPrice⟩)
    | none =>
      (st.1 - t.price * t.quantity, rhSet st.2 t.symbol ⟨t.quantity, t.price⟩)
  else
    match rhLookup st.2 t.symbol with
    | some existing =>
      let newQuantity := existing.quantity - t.quantity
      if newQuantity ≤ 0 then (st.1 + t.price * t.quantity, rhDelete st.2 t.symbol)
      else (st.1 + t.price * t.quantity, rhSet st.2 t.symbol ⟨newQuantity, existing.avgPrice⟩)
    | none => (st.1 + t.price * t.quantity, st.2)

/-- Replay all transactions with `timestamp ≤ date` from scratch, starting
from the initial balance and an empty holdings map. The loop walks the
timestamp-ascending list and breaks at the first later transaction, which
on any list is exactly `takeWhile`. -/
def replayUpTo (initial_balance : ℚ) (txns : List TxnRow) (date : Nat) :
    ℚ × List (String × ReplayHolding) :=
  (txns.takeWhile (fun t => t.timestamp ≤ date)).foldl replayStep (initial_balance, [])

/-- The element of maximal date among those with `date ≤ d`
(`.filter(p => p.date <= date).sort((a, b) => b.date.localeCompare(a.date))[0]`;
a stable descending sort puts the first-occurring maximal element first). -/
def latestLE (data : List DataPoint) (d : Nat) : Option DataPoint :=
  (data.filter (fun p => p.date ≤ d)).foldl
    (fun best p =>
      match best with
      | none => some p
      | some b => if b.date < p.date then some p else best)
    none

/-- The close used to value a holding on `d`: an exact date match if one
exists, else the closest date strictly or weakly before, else no price
(the symbol then contributes nothing). -/
def priceOnOrBefore (data : List DataPoint) (d : Nat) : Option ℚ :=
  match data.find? (fun p => p.date == d) with
  | some p => some p.close
  | none => (latestLE data d).map (·.close)

/-- Value of the replayed holdings on date `d`: sum of
`quantity × closePrice(symbol, d)`, where a symbol whose series is missing
or has no data on or before `d` contributes zero. -/
def holdingsValueAt (dataMap : List (String × List DataPoint))
    (holdings : List (String × ReplayHolding)) (d : Nat) : ℚ :=
  holdings.foldl
    (fun acc kh =>
      match dataFor dataMap kh.1 with
      | none => acc
      | some data =>
        match priceOnOrBefore data d with
        | some c => acc + kh.2.quantity * c
        | none => acc)
    0

/-- The spec's error taxonomy entry for the performance endpoint; the type
exists so the claim about it can be stated (see the C8 theorems — the
source never raises it). -/
inductive PerfError where
  | historyUnavailable
  deriving DecidableEq, Repr

/-- Embedding of `getPortfolioPerformance` (post-authentication, portfolio
found): with no transactions, a single point `(today, initialBalance)`;
otherwise fetch all traded symbols' series in bulk (failures per symbol
degraded to empty series), take the sorted union of all dates present, and
for each date emit the replayed cash plus the holdings value on that date. -/
def getPortfolioPerformance (hfetch : String → Option (List DataPoint))
    (initial_balance : ℚ) (txns : List TxnRow) (today : Nat) :
    Except PerfError (List (Nat × ℚ)) :=
  if txns = [] then .ok [(today, initial_balance)]
  else
    let dataMap := getBulkHistoricalData hfetch (dedupSymbols txns)
    let allDates := sortAsc (dedupNat (dataMap.foldl (fun acc p => acc ++ p.2.map (·.date)) []))
    .ok (allDates.map (fun d =>
      let replayed := replayUpTo initial_balance txns d
      (d, replayed.1 + holdingsValueAt dataMap replayed.2 d)))

/-- A quote oracle that succeeds for every symbol with a fixed price, used
by the concrete scenarios below. -/
def oneQuote (p : ℚ) : String → Option YQuote :=
  fun s => some { symbol := s, price := p }

/-- The idle Alpha Vantage singleton: empty cache, no fetches yet. -/
def emptyAV : AVState := ⟨[], 0⟩

/-- The Yahoo service before any fetch. -/
def yf0 : YFState := ⟨0⟩

/-- An account with balance 50 holding 5 AAPL (C1 failing input). -/
def acctC1 : Account := ⟨50, 100000, [⟨"AAPL", 5, 100, 100⟩], []⟩

/-- Sell a negative quantity of AAPL against `acctC1` at quote price 100. -/
def tradeC1 := executeTrade (oneQuote 100) emptyAV yf0 acctC1 "AAPL" (-10) "sell"

/-- An account holding MSFT but no AAPL (C2 failing input). -/
def acctC2 : Account := ⟨99200, 100000, [⟨"MSFT", 3, 50, 50⟩], []⟩

/-- Sell 10 AAPL against `acctC2`, which holds no AAPL. -/
def tradeC2 := executeTrade (oneQuote 100) emptyAV yf0 acctC2 "AAPL" 10 "sell"

/-- An account with balance 1000 and no holdings (C3 failing input). -/
def acctC3 : Account := ⟨1000, 1000, [], []⟩

/-- Buy a negative quantity of AAPL against `acctC3`. -/
def tradeC3 := executeTrade (oneQuote 100) emptyAV yf0 acctC3 "AAPL" (-5) "buy"

/-- A fresh account with the default starting balance. -/
def acctStart : Account := ⟨100000, 100000, [], []⟩

/-- Buy 10 AAPL at 100 (first step of the average-cost scenario). -/
def buy1 := executeTrade (oneQuote 100) emptyAV yf0 acctStart "AAPL" 10 "buy"

/-- Buy 10 more AAPL at 200. -/
def buy2 := executeTrade (oneQuote 200) buy1.2.2.1 buy1.2.2.2 buy1.2.1 "AAPL" 10 "buy"

/-- Sell 5 AAPL at 175. -/
def sell3 := executeTrade (oneQuote 175) buy2.2.2.1 buy2.2.2.2 buy2.2.1 "AAPL" 5 "sell"

/-- A database in which user 7 already has a portfolio (C5 input). -/
def dbC5 : DB := ⟨[⟨1, 7, "My Portfolio", 100000, 100000⟩], [], [], 2⟩

/-- Migrate a guest portfolio for user 7, who already has a ledger. -/
def migC5 := migrateGuestPortfolio dbC5 7 ⟨"Guest Portfolio", 1000, 900⟩ [] [] 0

/-- An Alpha Vantage state whose cache holds a fresh AAPL quote (price 123,
fetched at time 1000) — C9 input. -/
def avFresh : AVState := ⟨[("AAPL", ⟨⟨"AAPL", 123, 1, 1, 10⟩, 1000⟩)], 5⟩

/-- Buy 10 AAPL while `avFresh` holds a fresh cached AAPL quote. -/
def tradeC9 := executeTrade (oneQuote 150) avFresh yf0 ⟨100000, 100000, [], []⟩ "AAPL" 10 "buy"

/-- A history oracle for which every symbol's fetch fails. -/
def failAll : String → Option (List DataPoint) := fun _ => none

/-- The performance call when the only traded symbol's history fails. -/
def perfC8 := getPortfolioPerformance failAll 1000 [⟨1, "buy", "AAPL", 1, 100, 5⟩] 99

/-- A successful Alpha Vantage upstream oracle with price 42 (C6 witness). -/
def avFetchW : String → AVQuote := fun s => ⟨s, 42, 1, 1, 10⟩

/-! ## Helper lemmas -/

theorem findHolding_symbol {hs : List Holding} {s : String} {h : Holding}
    (hf : findHolding hs s = some h) : h.symbol = s := by
  induction hs with
  | nil => exact absurd hf (by simp [findHolding])
  | cons a rest ih =>
    by_cases ha : a.symbol = s
    · simp only [findHolding, if_pos ha] at hf
      cases hf
      exact ha
    · simp only [findHolding, if_neg ha] at hf
      exact ih hf

theorem findHolding_updateHolding {hs : List Holding} {s : String} {h : Holding}
    (h' : Holding) (hf : findHolding hs s = some h) (hsym : h'.symbol = s) :
    findHolding (updateHolding hs s h') s = some h' := by
  induction hs with
  | nil => exact absurd hf (by simp [findHolding])
  | cons a rest ih =>
    by_cases ha : a.symbol = s
    · simp [updateHolding, if_pos ha, findHolding, hsym]
    · simp only [findHolding, if_neg ha] at hf
      simp [updateHolding, if_neg ha, findHolding, ih hf]

theorem toUpperStr_AAPL : toUpperStr "AAPL" = "AAPL" := rfl

theorem toUpperStr_aapl : toUpperStr "aapl" = "AAPL" := rfl

theorem buyValid (symbol : String) (quantity : ℚ) (hs : symbol ≠ "") (hq : quantity ≠ 0) :
    ¬(symbol = "" ∨ quantity = 0 ∨ ("buy" : String) = "" ∨
      (("buy" : String) ≠ "buy" ∧ ("buy" : String) ≠ "sell")) := by
  rintro (h | h | h | ⟨h, _⟩)
  · exact hs h
  · exact hq h
  · exact absurd h (by decide)
  · exact h rfl

theorem sellValid (symbol : String) (quantity : ℚ) (hs : symbol ≠ "") (hq : quantity ≠ 0) :
    ¬(symbol = "" ∨ quantity = 0 ∨ ("sell" : String) = "" ∨
      (("sell" : String) ≠ "buy" ∧ ("sell" : String) ≠ "sell")) := by
  rintro (h | h | h | ⟨_, h⟩)
  · exact hs h
  · exact hq h
  · exact absurd h (by decide)
  · exact h rfl

theorem executeTrade_invalid (yfetch : String → Option YQuote) (av : AVState) (yf : YFState)
    (acct : Account) (symbol : String) (quantity : ℚ) (type : String)
    (h : symbol = "" ∨ quantity = 0 ∨ type = "" ∨ (type ≠ "buy" ∧ type ≠ "sell")) :
    executeTrade yfetch av yf acct symbol quantity type
      = (.error .invalidOrder, acct, av, yf) := by
  unfold executeTrade
  rw [if_pos h]

theorem executeTrade_noquote (yfetch : String → Option YQuote) (av : AVState) (yf : YFState)
    (acct : Account) (symbol : String) (quantity : ℚ) (type : String)
    (hval : ¬(symbol = "" ∨ quantity = 0 ∨ type = "" ∨ (type ≠ "buy" ∧ type ≠ "sell")))
    (hfetch : yfetch (toUpperStr symbol) = none) :
    executeTrade yfetch av yf acct symbol quantity type
      = (.error .serverError, acct, av, ⟨yf.fetchCount + 1⟩) := by
  unfold executeTrade yahooGetQuote
  rw [if_neg hval, hfetch]

theorem executeTrade_buy_merge (yfetch : String → Option YQuote) (av : AVState) (yf : YFState)
    (acct : Account) (symbol : String) (quantity : ℚ) (q : YQuote) (h : Holding)
    (hs : symbol ≠ "") (hq0 : quantity ≠ 0)
    (hfetch : yfetch (toUpperStr symbol) = some q)
    (hbal : ¬ acct.current_balance < q.price * quantity)
    (hfind : findHolding acct.holdings (toUpperStr symbol) = some h) :
    executeTrade yfetch av yf acct symbol quantity "buy" =
      (.ok ⟨q.price, quantity, q.price * quantity⟩,
       { acct with
          current_balance := acct.current_balance - q.price * quantity,
          holdings := updateHolding acct.holdings (toUpperStr symbol)
            { h with
                quantity := h.quantity + quantity,
                purchase_price := (h.purchase_price * h.quantity + q.price * quantity)
                  / (h.quantity + quantity),
                current_price := q.price },
          transactions := acct.transactions ++
            [⟨"buy", toUpperStr symbol, quantity, q.price⟩] },
       av, ⟨yf.fetchCount + 1⟩) := by
  unfold executeTrade yahooGetQuote
  rw [if_neg (buyValid symbol quantity hs hq0), hfetch]
  dsimp only
  rw [if_pos (rfl : ("buy" : String) = "buy"), if_neg hbal, hfind]

theorem executeTrade_buy_new (yfetch : String → Option YQuote) (av : AVState) (yf : YFState)
    (acct : Account) (symbol : String) (quantity : ℚ) (q : YQuote)
    (hs : symbol ≠ "") (hq0 : quantity ≠ 0)
    (hfetch : yfetch (toUpperStr symbol) = some q)
    (hbal : ¬ acct.current_balance < q.price * quantity)
    (hfind : findHolding acct.holdings (toUpperStr symbol) = none) :
    executeTrade yfetch av yf acct symbol quantity "buy" =
      (.ok ⟨q.price, quantity, q.price * quantity⟩,
       { acct with
          current_balance := acct.current_balance - q.price * quantity,
          holdings := acct.holdings ++ [⟨toUpperStr symbol, quantity, q.price, q.price⟩],
          transactions := acct.transactions ++
            [⟨"buy", toUpperStr symbol, quantity, q.price⟩] },
       av, ⟨yf.fetchCount + 1⟩) := by
  unfold executeTrade yahooGetQuote
  rw [if_neg (buyValid symbol quantity hs hq0), hfetch]
  dsimp only
  rw [if_pos (rfl : ("buy" : String) = "buy"), if_neg hbal, hfind]

theorem executeTrade_buy_insufficient (yfetch : String → Option YQuote) (av : AVState)
    (yf : YFState) (acct : Account) (symbol : String) (quantity : ℚ) (q : YQuote)
    (hs : symbol ≠ "") (hq0 : quantity ≠ 0)
    (hfetch : yfetch (toUpperStr symbol) = some q)
    (hbal : acct.current_balance < q.price * quantity) :
    executeTrade yfetch av yf acct symbol quantity "buy"
      = (.error .insufficientFunds, acct, av, ⟨yf.fetchCount + 1⟩) := by
  unfold executeTrade yahooGetQuote
  rw [if_neg (buyValid symbol quantity hs hq0), hfetch]
  dsimp only
  rw [if_pos (rfl : ("buy" : String) = "buy"), if_pos hbal]

theorem executeTrade_sell_ok (yfetch : String → Option YQuote) (av : AVState) (yf : YFState)
    (acct : Account) (symbol : String) (quantity : ℚ) (q : YQuote) (h : Holding)
    (hs : symbol ≠ "") (hq0 : quantity ≠ 0)
    (hfetch : yfetch (toUpperStr symbol) = some q)
    (hfind : findHolding acct.holdings (toUpperStr symbol) = some h)
    (hge : ¬ h.quantity < quantity) :
    executeTrade yfetch av yf acct symbol quantity "sell" =
      (.ok ⟨q.price, quantity, q.price * quantity⟩,
       { acct with
          current_balance := acct.current_balance + q.price * quantity,
          holdings :=
            if h.quantity - quantity = 0 then
              removeHolding acct.holdings (toUpperStr symbol)
            else
              updateHolding acct.holdings (toUpperStr symbol)
                { h with quantity := h.quantity - quantity, current_price := q.price },
          transactions := acct.transactions ++
            [⟨"sell", toUpperStr symbol, quantity, q.price⟩] },
       av, ⟨yf.fetchCount + 1⟩) := by
  unfold executeTrade yahooGetQuote
  rw [if_neg (sellValid symbol quantity hs hq0), hfetch]
  dsimp only
  rw [if_neg (by decide : ¬ ("sell" : String) = "buy"), hfind]
  dsimp only
  rw [if_neg hge]

theorem executeTrade_sell_insufficient (yfetch : String → Option YQuote) (av : AVState)
    (yf : YFState) (acct : Account) (symbol : String) (quantity : ℚ) (q : YQuote) (h : Holding)
    (hs : symbol ≠ "") (hq0 : quantity ≠ 0)
    (hfetch : yfetch (toUpperStr symbol) = some q)
    (hfind : findHolding acct.holdings (toUpperStr symbol) = some h)
    (hlt : h.quantity < quantity) :
    executeTrade yfetch av yf acct symbol quantity "sell"
      = (.error .insufficientShares, acct, av, ⟨yf.fetchCount + 1⟩) := by
  unfold executeTrade yahooGetQuote
  rw [if_neg (sellValid symbol quantity hs hq0), hfetch]
  dsimp only
  rw [if_neg (by decide : ¬ ("sell" : String) = "buy"), hfind]
  dsimp only
  rw [if_pos hlt]

theorem executeTrade_sell_noholding (yfetch : String → Option YQuote) (av : AVState)
    (yf : YFState) (acct : Account) (symbol : String) (quantity : ℚ) (q : YQuote)
    (hs : symbol ≠ "") (hq0 : quantity ≠ 0)
    (hfetch : yfetch (toUpperStr symbol) = some q)
    (hfind : findHolding acct.holdings (toUpperStr symbol) = none) :
    executeTrade yfetch av yf acct symbol quantity "sell"
      = (.error .serverError, acct, av, ⟨yf.fetchCount + 1⟩) := by
  unfold executeTrade yahooGetQuote
  rw [if_neg (sellValid symbol quantity hs hq0), hfetch]
  dsimp only
  rw [if_neg (by decide : ¬ ("sell" : String) = "buy"), hfind]

theorem toUpperStr_eq_empty (s : String) : toUpperStr s = "" ↔ s = "" := by
  cases s with
  | mk data =>
    constructor
    · intro h
      have hd : data.map Char.toUpper = [] := congrArg String.data h
      have : data = [] := List.map_eq_nil_iff.mp hd
      rw [this]
    · intro h
      have hd : data = [] := congrArg String.data h
      rw [hd]
      rfl

theorem updateHolding_cons_pos (a : Holding) (rest : List Holding) (s : String)
    (h' : Holding) (ha : a.symbol = s) :
    updateHolding (a :: rest) s h' = h' :: rest := by
  unfold updateHolding
  rw [if_pos ha]

theorem getBulkHistoricalData_all_fail (hfetch : String → Option (List DataPoint))
    (symbols : List String) (hall : ∀ s ∈ symbols, hfetch s = none) :
    getBulkHistoricalData hfetch symbols
      = symbols.map (fun s => (s, ([] : List DataPoint))) := by
  unfold getBulkHistoricalData
  apply List.map_congr_left
  intro s hs
  rw [hall s hs]
  rfl

theorem dates_foldl_of_all_nil (l : List (String × List DataPoint)) :
    ∀ acc : List Nat, (∀ p ∈ l, p.2 = []) →
      l.foldl (fun acc p => acc ++ p.2.map (·.date)) acc = acc := by
  induction l with
  | nil =>
    intro acc _
    rfl
  | cons p rest ih =>
    intro acc hall
    rw [List.foldl_cons, hall p (List.mem_cons_self p rest)]
    simp only [List.map_nil, List.append_nil]
    exact ih acc (fun p' hp' => hall p' (List.mem_cons_of_mem p hp'))

theorem cacheLookup_cacheSet_self (c : List (String × CachedQuote)) (s : String)
    (e : CachedQuote) : cacheLookup (cacheSet c s e) s = some e := by
  induction c with
  | nil => simp [cacheSet, cacheLookup]
  | cons kv rest ih =>
    by_cases hk : kv.1 = s
    · simp [cacheSet, hk, cacheLookup]
    · simp [cacheSet, hk, cacheLookup, ih]

theorem schedFrom_start_le_completion (reqs : List (Nat × Nat)) :
    ∀ (pc : Nat), ∀ e ∈ schedFrom pc reqs, e.2.1 ≤ e.2.2 := by
  induction reqs with
  | nil =>
    intro pc e he
    simp [schedFrom] at he
  | cons r rest ih =>
    obtain ⟨a, d⟩ := r
    intro pc e he
    rw [schedFrom] at he
    rcases List.mem_cons.mp he with he | he
    · subst he
      exact Nat.le_add_right _ _
    · exact ih _ e he

theorem schedFrom_chain (reqs : List (Nat × Nat)) :
    ∀ prev : Nat × Nat × Nat, prev.2.1 ≤ prev.2.2 →
    List.Chain'
      (fun x y : Nat × Nat × Nat =>
        x.2.2 ≤ y.2.1 ∧ (y.1 ≤ x.2.2 → x.2.1 + minRequestInterval ≤ y.2.1))
      (prev :: schedFrom prev.2.2 reqs) := by
  induction reqs with
  | nil =>
    intro prev _
    simp [schedFrom]
  | cons r rest ih =>
    obtain ⟨a, d⟩ := r
    intro prev hprev
    rw [schedFrom, List.chain'_cons]
    constructor
    · by_cases ha : a ≤ prev.2.2
      · simp only [if_pos ha]
        exact ⟨Nat.le_add_right _ _, fun _ => Nat.add_le_add_right hprev _⟩
      · simp only [if_neg ha]
        exact ⟨Nat.le_of_not_le ha, fun hle => absurd hle ha⟩
    · exact ih (a, if a ≤ prev.2.2 then prev.2.2 + minRequestInterval else a,
        (if a ≤ prev.2.2 then prev.2.2 + minRequestInterval else a) + d)
        (Nat.le_add_right _ _)

/-! ## Claim theorems -/

/-- C1: the claimed invariant — `cashBalance` never becomes negative and no
holding is reduced below zero over any sequence of executed trades — fails
on the code: the `!quantity` validation only rejects a zero quantity, so a
sell with quantity −10 passes validation, is executed
(`current_balance + price × (−10)`), and drives the balance of an account
holding 5 AAPL with balance 50 to −950 < 0. -/
theorem C1_negative_sell_drives_balance_negative :
    tradeC1.1 = .ok ⟨100, -10, -1000⟩ ∧
    tradeC1.2.1.current_balance = -950 ∧
    tradeC1.2.1.current_balance < 0 := by
  rw [tradeC1, executeTrade_sell_ok (oneQuote 100) emptyAV yf0 acctC1 "AAPL" (-10)
    ⟨"AAPL", 100⟩ ⟨"AAPL", 5, 100, 100⟩ (by decide) (by norm_num) rfl rfl (by norm_num)]
  refine ⟨?_, ?_, ?_⟩ <;> norm_num [acctC1]

/-- C2: a sell of a symbol with no holding row does not fail with
`InsufficientShares`: the code reads `holdings[0].quantity` before testing
`holdings.length === 0`, so it throws a TypeError and responds with the
generic 500 (`serverError` in the model). The account state is unchanged. -/
theorem C2_no_holding_sell_throws_not_insufficient_shares :
    tradeC2.1 = .error .serverError ∧
    tradeC2.1 ≠ .error .insufficientShares ∧
    tradeC2.2.1 = acctC2 := by
  refine ⟨rfl, ?_, rfl⟩
  intro h
  have h' : (Except.error TradeError.serverError : Except TradeError TradeOk)
      = .error .insufficientShares := h
  injection h' with hh
  exact TradeError.noConfusion hh

/-- C3: a strictly negative quantity is not rejected with `InvalidOrder`:
the trade with quantity −5 returns success, the price lookup does occur
(the Yahoo fetch counter increments), and the state is mutated (the balance
grows from 1000 to 1500 and a holding with negative quantity appears). -/
theorem C3_negative_quantity_not_rejected :
    tradeC3.1 = .ok ⟨100, -5, -500⟩ ∧
    tradeC3.1 ≠ .error .invalidOrder ∧
    tradeC3.2.2.2.fetchCount = yf0.fetchCount + 1 ∧
    tradeC3.2.1.current_balance = 1500 ∧
    tradeC3.2.1.holdings = [⟨"AAPL", -5, 100, 100⟩] := by
  rw [tradeC3, executeTrade_buy_new (oneQuote 100) emptyAV yf0 acctC3 "AAPL" (-5)
    ⟨"AAPL", 100⟩ (by decide) (by norm_num) rfl (by norm_num [acctC3]) rfl]
  refine ⟨?_, ?_, ?_, ?_, ?_⟩
  · norm_num
  · intro h
    exact Except.noConfusion h
  · rfl
  · norm_num [acctC3]
  · simp [acctC3, toUpperStr_AAPL]

/-- C5 counterexample: user 7 already has a portfolio in `dbC5`, yet the
migration succeeds (no `MigrationConflict`) and creates a second portfolio
row for the same owner. -/
theorem C5_counterexample_migration_succeeds_despite_existing_ledger :
    (∃ row ∈ dbC5.portfolios, row.user_id = 7) ∧
    migC5.1 = .ok 2 ∧
    migC5.1 ≠ .error .migrationConflict ∧
    migC5.2.portfolios.length = 2 ∧
    (∀ row ∈ migC5.2.portfolios, row.user_id = 7) := by
  refine ⟨⟨⟨1, 7, "My Portfolio", 100000, 100000⟩, by simp [dbC5], rfl⟩, rfl, ?_, rfl, ?_⟩
  · intro h
    exact Except.noConfusion
      (show (Except.ok 2 : Except MigrateError Nat) = .error .migrationConflict from h)
  · intro row hrow
    have hrow' : row ∈ [PortfolioRow.mk 1 7 "My Portfolio" 100000 100000,
        PortfolioRow.mk 2 7 "Guest Portfolio" 1000 900] := hrow
    cases hrow' with
    | head => rfl
    | tail _ h =>
      cases h with
      | head => rfl
      | tail _ h' => cases h'

/-- C5 amended: `migrateGuestPortfolio` performs no conflict check at all —
for every prior database state (including one where the owner already has a
ledger) it succeeds, appending one new portfolio row with the supplied
balances and inserting the supplied holdings and transactions verbatim, so
several ledgers per owner can exist. -/
theorem C5_amended_migration_never_conflicts (db : DB) (userId : Nat)
    (portfolio : GuestPortfolio) (holdings : List GuestHolding)
    (transactions : List GuestTxn) (now : Nat) :
    (migrateGuestPortfolio db userId portfolio holdings transactions now).1
      = .ok db.nextId ∧
    (migrateGuestPortfolio db userId portfolio holdings transactions now).2.portfolios
      = db.portfolios ++
        [⟨db.nextId, userId, portfolio.name, portfolio.initialBalance,
          portfolio.currentBalance⟩] ∧
    (migrateGuestPortfolio db userId portfolio holdings transactions now).2.holdings.length
      = db.holdings.length + holdings.length ∧
    (migrateGuestPortfolio db
        userId portfolio holdings transactions now).2.transactions.length
      = db.transactions.length + transactions.length := by
  refine ⟨rfl, rfl, ?_, ?_⟩
  · simp [migrateGuestPortfolio]
  · simp [migrateGuestPortfolio]

/-- C7 counterexample: the universal minimum-spacing claim fails — a fetch
that arrives while the queue is idle starts immediately. With a fetch
arriving at 0 taking 1 ms and a second arriving at 2 (after the first
completed and the queue drained), the two starts are 2 ms apart, far less
than the 12000 ms minimum interval. -/
theorem C7_counterexample_idle_arrival_starts_within_interval :
    sched [(0, 1), (2, 1)] = [(0, 0, 1), (2, 2, 3)] ∧
    2 - 0 < minRequestInterval := by
  exact ⟨rfl, by decide⟩

/-- C7 amended: for every submission sequence (arrival time, duration), the
schedule runs the fetches one at a time in FIFO order — each start is no
earlier than the previous completion, and each completion is no earlier than
its start — and whenever the next fetch was already queued when the previous
one completed, its start is at least `minRequestInterval` after the previous
start. A fetch arriving to an idle queue starts immediately, possibly
sooner than the minimum interval after the previous start. -/
theorem C7_amended_fifo_single_flight_spacing (reqs : List (Nat × Nat)) :
    (∀ e ∈ sched reqs, e.2.1 ≤ e.2.2) ∧
    List.Chain'
      (fun x y : Nat × Nat × Nat =>
        x.2.2 ≤ y.2.1 ∧ (y.1 ≤ x.2.2 → x.2.1 + minRequestInterval ≤ y.2.1))
      (sched reqs) := by
  cases reqs with
  | nil => simp [sched]
  | cons r rest =>
    obtain ⟨a, d⟩ := r
    constructor
    · intro e he
      rw [sched] at he
      rcases List.mem_cons.mp he with he | he
      · subst he
        exact Nat.le_add_right _ _
      · exact schedFrom_start_le_completion rest _ e he
    · rw [sched]
      exact schedFrom_chain rest (a, a, a + d) (Nat.le_add_right _ _)

/-- C7 witness: the amended schedule property instantiated on a concrete
two-element queue in which the second fetch is queued before the first
completes. -/
theorem C7_amended_witness :
    (∀ e ∈ sched [(0, 1), (1, 3)], e.2.1 ≤ e.2.2) ∧
    List.Chain'
      (fun x y : Nat × Nat × Nat =>
        x.2.2 ≤ y.2.1 ∧ (y.1 ≤ x.2.2 → x.2.1 + minRequestInterval ≤ y.2.1))
      (sched [(0, 1), (1, 3)]) :=
  C7_amended_fifo_single_flight_spacing [(0, 1), (1, 3)]

/-- C4: `averageCost` (`purchase_price`) is recomputed only on a buy, by the
weighted-average formula, and a sell leaves the `purchase_price` of the
remaining holding untouched; concretely, buying 10 at 100 then 10 at 200
yields average cost 150 with quantity 20, and selling 5 at 175 leaves
average cost 150 with quantity 15. -/
theorem C4_average_cost_only_on_buy :
    (∀ (yfetch : String → Option YQuote) (av : AVState) (yf : YFState) (acct : Account)
        (symbol : String) (quantity : ℚ) (q : YQuote) (h : Holding),
        symbol ≠ "" → quantity ≠ 0 →
        yfetch (toUpperStr symbol) = some q →
        findHolding acct.holdings (toUpperStr symbol) = some h →
        ¬ h.quantity < quantity →
        h.quantity - quantity ≠ 0 →
        findHolding (executeTrade yfetch av yf acct symbol quantity "sell").2.1.holdings
            (toUpperStr symbol)
          = some { h with quantity := h.quantity - quantity, current_price := q.price }) ∧
    (∀ (yfetch : String → Option YQuote) (av : AVState) (yf : YFState) (acct : Account)
        (symbol : String) (quantity : ℚ) (q : YQuote) (h : Holding),
        symbol ≠ "" → quantity ≠ 0 →
        yfetch (toUpperStr symbol) = some q →
        ¬ acct.current_balance < q.price * quantity →
        findHolding acct.holdings (toUpperStr symbol) = some h →
        findHolding (executeTrade yfetch av yf acct symbol quantity "buy").2.1.holdings
            (toUpperStr symbol)
          = some { h with
              quantity := h.quantity + quantity,
              purchase_price := (h.purchase_price * h.quantity + q.price * quantity)
                / (h.quantity + quantity),
              current_price := q.price }) ∧
    buy2.2.1.holdings = [⟨"AAPL", 20, 150, 200⟩] ∧
    sell3.2.1.holdings = [⟨"AAPL", 15, 150, 175⟩] := by
  have h1 : buy1 = (.ok ⟨100, 10, 1000⟩,
      ⟨99000, 100000, [⟨"AAPL", 10, 100, 100⟩], [⟨"buy", "AAPL", 10, 100⟩]⟩,
      emptyAV, ⟨1⟩) := by
    rw [buy1, executeTrade_buy_new (oneQuote 100) emptyAV yf0 acctStart "AAPL" 10
      ⟨"AAPL", 100⟩ (by decide) (by norm_num) rfl (by norm_num [acctStart]) rfl]
    norm_num [acctStart, toUpperStr_AAPL, yf0]
  have h2 : buy2 = (.ok ⟨200, 10, 2000⟩,
      ⟨97000, 100000, [⟨"AAPL", 20, 150, 200⟩],
        [⟨"buy", "AAPL", 10, 100⟩, ⟨"buy", "AAPL", 10, 200⟩]⟩,
      emptyAV, ⟨2⟩) := by
    rw [buy2, h1]
    dsimp only
    rw [executeTrade_buy_merge (oneQuote 200) emptyAV ⟨1⟩
      ⟨99000, 100000, [⟨"AAPL", 10, 100, 100⟩], [⟨"buy", "AAPL", 10, 100⟩]⟩ "AAPL" 10
      ⟨"AAPL", 200⟩ ⟨"AAPL", 10, 100, 100⟩ (by decide) (by norm_num) rfl (by norm_num) rfl]
    norm_num [toUpperStr_AAPL, updateHolding_cons_pos]
  have h3 : sell3 = (.ok ⟨175, 5, 875⟩,
      ⟨97875, 100000, [⟨"AAPL", 15, 150, 175⟩],
        [⟨"buy", "AAPL", 10, 100⟩, ⟨"buy", "AAPL", 10, 200⟩, ⟨"sell", "AAPL", 5, 175⟩]⟩,
      emptyAV, ⟨3⟩) := by
    rw [sell3, h2]
    dsimp only
    rw [executeTrade_sell_ok (oneQuote 175) emptyAV ⟨2⟩
      ⟨97000, 100000, [⟨"AAPL", 20, 150, 200⟩],
        [⟨"buy", "AAPL", 10, 100⟩, ⟨"buy", "AAPL", 10, 200⟩]⟩ "AAPL" 5
      ⟨"AAPL", 175⟩ ⟨"AAPL", 20, 150, 200⟩ (by decide) (by norm_num) rfl rfl (by norm_num)]
    norm_num [toUpperStr_AAPL, updateHolding_cons_pos]
  refine ⟨?_, ?_, ?_, ?_⟩
  · intro yfetch av yf acct symbol quantity q h hs hq0 hfetch hfind hge hnz
    rw [executeTrade_sell_ok yfetch av yf acct symbol quantity q h hs hq0 hfetch hfind hge]
    dsimp only
    rw [if_neg hnz]
    have hsym : h.symbol = toUpperStr symbol := findHolding_symbol hfind
    exact findHolding_updateHolding _ hfind hsym
  · intro yfetch av yf acct symbol quantity q h hs hq0 hfetch hbal hfind
    rw [executeTrade_buy_merge yfetch av yf acct symbol quantity q h hs hq0 hfetch hbal hfind]
    dsimp only
    have hsym : h.symbol = toUpperStr symbol := findHolding_symbol hfind
    exact findHolding_updateHolding _ hfind hsym
  · rw [h2]
  · rw [h3]

/-- C4 witness: the sell clause of the average-cost theorem instantiated on a
concrete account holding 20 AAPL at average cost 150, selling 5 at 175. -/
theorem C4_average_cost_witness :
    findHolding (executeTrade (oneQuote 175) emptyAV yf0
        ⟨97000, 100000, [⟨"AAPL", 20, 150, 200⟩], []⟩ "AAPL" 5 "sell").2.1.holdings
      (toUpperStr "AAPL") = some ⟨"AAPL", 15, 150, 175⟩ := by
  have h := C4_average_cost_only_on_buy.1 (oneQuote 175) emptyAV yf0
    ⟨97000, 100000, [⟨"AAPL", 20, 150, 200⟩], []⟩ "AAPL" 5 ⟨"AAPL", 175⟩
    ⟨"AAPL", 20, 150, 200⟩ (by decide) (by norm_num) rfl rfl (by norm_num) (by norm_num)
  norm_num at h
  exact h

/-- C6: the Alpha Vantage quote cache honours its 15-minute freshness
window: a hit (entry younger than the window) returns the cached payload
with no upstream fetch and no state change; on a cold symbol, a first call
fetches and stores the payload keyed by the symbol, a second call within the
window returns it without fetching (exactly one upstream fetch across both
calls), and a call after the window expires fetches exactly once more,
overwriting the entry with the fresh timestamp. -/
theorem C6_quote_cache_freshness (fetch : String → AVQuote) (st : AVState)
    (symbol : String) (t₁ t₂ t₃ : Nat)
    (hmiss : cacheLookup st.cache symbol = none)
    (hfresh : t₂ - t₁ < cacheExpiry)
    (hstale : ¬ t₃ - t₁ < cacheExpiry) :
    (∀ (st' : AVState) (now : Nat) (c : CachedQuote),
       cacheLookup st'.cache symbol = some c → now - c.timestamp < cacheExpiry →
       avGetQuote fetch st' symbol now = (c.data, st')) ∧
    (avGetQuote fetch st symbol t₁).2.fetchCount = st.fetchCount + 1 ∧
    cacheLookup (avGetQuote fetch st symbol t₁).2.cache symbol
      = some ⟨fetch symbol, t₁⟩ ∧
    avGetQuote fetch (avGetQuote fetch st symbol t₁).2 symbol t₂
      = (fetch symbol, (avGetQuote fetch st symbol t₁).2) ∧
    (avGetQuote fetch (avGetQuote fetch st symbol t₁).2 symbol t₃).2.fetchCount
      = st.fetchCount + 2 ∧
    cacheLookup (avGetQuote fetch (avGetQuote fetch st symbol t₁).2 symbol t₃).2.cache
        symbol
      = some ⟨fetch symbol, t₃⟩ := by
  have h1 : avGetQuote fetch st symbol t₁
      = (fetch symbol,
         ⟨cacheSet st.cache symbol ⟨fetch symbol, t₁⟩, st.fetchCount + 1⟩) := by
    unfold avGetQuote
    rw [hmiss]
  have hlook : cacheLookup (cacheSet st.cache symbol ⟨fetch symbol, t₁⟩) symbol
      = some ⟨fetch symbol, t₁⟩ := cacheLookup_cacheSet_self _ _ _
  refine ⟨?_, ?_, ?_, ?_, ?_, ?_⟩
  · intro st' now c hc hfr
    unfold avGetQuote
    rw [hc]
    dsimp only
    rw [if_pos hfr]
  · rw [h1]
  · rw [h1]
    exact hlook
  · rw [h1]
    unfold avGetQuote
    dsimp only
    rw [hlook]
    dsimp only
    rw [if_pos hfresh]
  · rw [h1]
    unfold avGetQuote
    dsimp only
    rw [hlook]
    dsimp only
    rw [if_neg hstale]
  · rw [h1]
    unfold avGetQuote
    dsimp only
    rw [hlook]
    dsimp only
    rw [if_neg hstale]
    dsimp only
    exact cacheLookup_cacheSet_self _ _ _

/-- C6 witness: the cache theorem instantiated on a concrete oracle and
timeline — first call at 1000 ms, second 60 s later (inside the window),
third exactly at expiry of the window. -/
theorem C6_quote_cache_freshness_witness :
    avGetQuote avFetchW (avGetQuote avFetchW emptyAV "AAPL" 1000).2 "AAPL" 61000
      = (avFetchW "AAPL", (avGetQuote avFetchW emptyAV "AAPL" 1000).2) :=
  (C6_quote_cache_freshness avFetchW emptyAV "AAPL" 1000 61000 901000 rfl (by decide)
    (by decide)).2.2.2.1

/-- C8 counterexample: with one transaction for AAPL and a history oracle
that fails for every symbol (all symbols ever traded fail), the performance
call does not fail with `HistoryUnavailable` — it returns a successful,
empty, performance series. -/
theorem C8_counterexample_all_fail_returns_empty_ok :
    perfC8 = .ok [] := rfl

/-- C8 amended: the performance reconstruction never aborts for history
failures — every call returns a successful series; a symbol whose fetch
failed is given the empty series and contributes zero to the valuation on
every date; and when the fetches of all traded symbols fail, the call
returns the empty series (rather than failing with `HistoryUnavailable`). -/
theorem C8_amended_degrades_to_zero_never_errors :
    (∀ (hfetch : String → Option (List DataPoint)) (ib : ℚ) (txns : List TxnRow)
        (today : Nat),
        txns ≠ [] → (∀ s ∈ dedupSymbols txns, hfetch s = none) →
        getPortfolioPerformance hfetch ib txns today = .ok []) ∧
    (∀ (hfetch : String → Option (List DataPoint)) (ib : ℚ) (txns : List TxnRow)
        (today : Nat),
        ∃ pts, getPortfolioPerformance hfetch ib txns today = .ok pts) ∧
    (∀ (dataMap : List (String × List DataPoint))
        (holdings : List (String × ReplayHolding)) (d : Nat) (s : String)
        (entry : ReplayHolding),
        dataFor dataMap s = some [] →
        holdingsValueAt dataMap ((s, entry) :: holdings) d
          = holdingsValueAt dataMap holdings d) := by
  refine ⟨?_, ?_, ?_⟩
  · intro hfetch ib txns today htxns hall
    unfold getPortfolioPerformance
    rw [if_neg htxns]
    dsimp only
    rw [getBulkHistoricalData_all_fail hfetch (dedupSymbols txns) hall,
      dates_foldl_of_all_nil _ [] (by simp)]
    rfl
  · intro hfetch ib txns today
    unfold getPortfolioPerformance
    split
    · exact ⟨_, rfl⟩
    · exact ⟨_, rfl⟩
  · intro dataMap holdings d s entry hd
    simp only [holdingsValueAt, List.foldl_cons]
    congr 1
    simp [hd, priceOnOrBefore, latestLE]

/-- C8 witness: the all-fail clause instantiated on two transactions over
two symbols whose histories both fail, and the zero-contribution clause on a
one-entry map. -/
theorem C8_amended_witness :
    getPortfolioPerformance failAll 500
        [⟨1, "buy", "AAPL", 1, 100, 5⟩, ⟨1, "buy", "MSFT", 2, 50, 6⟩] 42 = .ok [] ∧
    holdingsValueAt [("AAPL", [])] [("AAPL", ⟨3, 100⟩)] 9
      = holdingsValueAt [("AAPL", [])] [] 9 :=
  ⟨C8_amended_degrades_to_zero_never_errors.1 failAll 500
      [⟨1, "buy", "AAPL", 1, 100, 5⟩, ⟨1, "buy", "MSFT", 2, 50, 6⟩] 42
      (by simp) (fun s _ => rfl),
   C8_amended_degrades_to_zero_never_errors.2.2 [("AAPL", [])] [] 9 "AAPL" ⟨3, 100⟩ rfl⟩

/-- C9 counterexample: even when the Alpha Vantage cache holds a fresh quote
for AAPL (price 123, still inside the freshness window at time 1500), a
trade for AAPL performs an upstream Yahoo fetch (the Yahoo fetch counter
increments) and uses the Yahoo price 150, not the cached payload: trade
price resolution does not go through the quote cache. -/
theorem C9_counterexample_trade_ignores_fresh_cache :
    isCacheValid avFresh "AAPL" 1500 = true ∧
    tradeC9.1 = .ok ⟨150, 10, 1500⟩ ∧
    tradeC9.2.2.2.fetchCount = yf0.fetchCount + 1 ∧
    tradeC9.2.2.1 = avFresh := by
  rw [tradeC9, executeTrade_buy_new (oneQuote 150) avFresh yf0 ⟨100000, 100000, [], []⟩
    "AAPL" 10 ⟨"AAPL", 150⟩ (by decide) (by norm_num) rfl (by norm_num) rfl]
  refine ⟨rfl, ?_, rfl, rfl⟩
  norm_num

/-- C9 amended: for every trade request that passes parameter validation,
price resolution performs exactly one upstream Yahoo fetch — regardless of
any cached quote — and never touches the Alpha Vantage cache/throttle
singleton; the quote cache plays no part in trade execution. -/
theorem C9_amended_trade_always_fetches_upstream (yfetch : String → Option YQuote)
    (av : AVState) (yf : YFState) (acct : Account) (symbol : String) (quantity : ℚ)
    (type : String)
    (hval : ¬(symbol = "" ∨ quantity = 0 ∨ type = "" ∨ (type ≠ "buy" ∧ type ≠ "sell"))) :
    (executeTrade yfetch av yf acct symbol quantity type).2.2.2.fetchCount
      = yf.fetchCount + 1 ∧
    (executeTrade yfetch av yf acct symbol quantity type).2.2.1 = av := by
  have hval' := hval
  push_neg at hval'
  obtain ⟨hs, hq, ht, hde⟩ := hval'
  rcases hfq : yfetch (toUpperStr symbol) with _ | q
  · rw [executeTrade_noquote yfetch av yf acct symbol quantity type hval hfq]
    exact ⟨rfl, rfl⟩
  · by_cases hb : type = "buy"
    · subst hb
      by_cases hbal : acct.current_balance < q.price * quantity
      · rw [executeTrade_buy_insufficient yfetch av yf acct symbol quantity q hs hq hfq hbal]
        exact ⟨rfl, rfl⟩
      · rcases hf : findHolding acct.holdings (toUpperStr symbol) with _ | h
        · rw [executeTrade_buy_new yfetch av yf acct symbol quantity q hs hq hfq hbal hf]
          exact ⟨rfl, rfl⟩
        · rw [executeTrade_buy_merge yfetch av yf acct symbol quantity q h hs hq hfq hbal hf]
          exact ⟨rfl, rfl⟩
    · have hsell : type = "sell" := hde hb
      subst hsell
      rcases hf : findHolding acct.holdings (toUpperStr symbol) with _ | h
      · rw [executeTrade_sell_noholding yfetch av yf acct symbol quantity q hs hq hfq hf]
        exact ⟨rfl, rfl⟩
      · by_cases hlt : h.quantity < quantity
        · rw [executeTrade_sell_insufficient yfetch av yf acct symbol quantity q h hs hq
            hfq hf hlt]
          exact ⟨rfl, rfl⟩
        · rw [executeTrade_sell_ok yfetch av yf acct symbol quantity q h hs hq hfq hf hlt]
          exact ⟨rfl, rfl⟩

/-- C9 witness: the amended theorem instantiated on a concrete valid sell
request made while the Alpha Vantage cache is non-empty. -/
theorem C9_amended_witness :
    (executeTrade (oneQuote 77) avFresh ⟨3⟩ ⟨0, 0, [], []⟩ "MSFT" 2 "sell").2.2.2.fetchCount
      = (⟨3⟩ : YFState).fetchCount + 1 ∧
    (executeTrade (oneQuote 77) avFresh ⟨3⟩ ⟨0, 0, [], []⟩ "MSFT" 2 "sell").2.2.1
      = avFresh :=
  C9_amended_trade_always_fetches_upstream (oneQuote 77) avFresh ⟨3⟩ ⟨0, 0, [], []⟩
    "MSFT" 2 "sell" (by decide)

/-- C10: `executeTrade` uppercases the symbol before the price lookup and
before every holdings read/write and transaction append, so two trade
requests whose symbols agree up to letter case produce identical results and
identical ledger effects. -/
theorem C10_symbol_case_insensitive (yfetch : String → Option YQuote) (av : AVState)
    (yf : YFState) (acct : Account) (s₁ s₂ : String) (quantity : ℚ) (type : String)
    (hsym : toUpperStr s₁ = toUpperStr s₂) :
    executeTrade yfetch av yf acct s₁ quantity type
      = executeTrade yfetch av yf acct s₂ quantity type := by
  have hempty : s₁ = "" ↔ s₂ = "" := by
    rw [← toUpperStr_eq_empty s₁, ← toUpperStr_eq_empty s₂, hsym]
  unfold executeTrade
  simp only [hsym, hempty]

/-- C10 witness: trading `aapl` and trading `AAPL` give identical results on
a concrete account. -/
theorem C10_symbol_case_insensitive_witness :
    executeTrade (oneQuote 100) emptyAV yf0 acctStart "aapl" 10 "buy"
      = executeTrade (oneQuote 100) emptyAV yf0 acctStart "AAPL" 10 "buy" :=
  C10_symbol_case_insensitive (oneQuote 100) emptyAV yf0 acctStart "aapl" "AAPL" 10 "buy"
    (by decide)

end StockTrading
